import Mathlib

/-!
# Verification of `pkg/config/config.go` (YaBoiBurner/bin)

A shallow embedding of the configuration store of `bin`: the process-wide
`cfg` record, `CheckAndLoad`, `getDefaultPath`, `UpsertBinary`,
`RemoveBinaries`, `write` and `GetArch`.

Modelling conventions

* The global `cfg` is passed explicitly: an operation takes the value of `cfg`
  before the call and returns the value after it together with the way the
  call ended.
* A Go call either returns or ends in a run-time panic (nil dereference,
  assignment to a nil map); `Run` records which.
* Everything the operating system or the Go standard library answers
  (`user.Current`, `os.OpenFile`, `os.Stat`, `os.Getenv`, the JSON decoder and
  encoder) is a field of `Env`.
* `log.Debugf` and `defer f.Close()` do not touch `cfg` or the results and are
  left out.
* `*Binary` is modelled by `Option Binary` (`none` is the nil pointer); pointer
  identity is abstracted to the value pointed to.
-/

namespace BinConfig

/-! ## Data model -/

/-- The struct `Binary` (config.go, lines 22-28). -/
structure Binary where
  Path : String
  RemoteName : String
  Version : String
  Hash : String
  URL : String
deriving DecidableEq, Repr

/-- A `map[string]*Binary` that has been made: a finite partial function from
keys to pointers.  `none` at a key means the key is absent; `some none` means
the key is present and holds a nil pointer. -/
abbrev BinMap := String → Option (Option Binary)

/-- The struct `config` (lines 17-20).  `Bins = none` is the nil map, the zero
value of a Go map. -/
structure config where
  DefaultPath : String
  Bins : Option BinMap

/-- The zero value of `config`, the initial content of the global `cfg`. -/
def config.zero : config := { DefaultPath := "", Bins := none }

/-- The map literal `map[string]*Binary{}`. -/
def BinMap.empty : BinMap := fun _ => none

/-- Go `error` values, as far as the code tells them apart: `io.EOF` and every
other error. -/
inductive Error where
  | EOF
  | other (msg : String)
deriving DecidableEq, Repr

/-- How a Go call ends: it returns a value, or the goroutine panics. -/
inductive Run (α : Type) where
  | returned (a : α)
  | panicked
deriving DecidableEq, Repr

/-- The interface `os.FileInfo`, of which only `Mode()` is read; `mode` is the
`os.FileMode` word. -/
structure FileInfo where
  mode : Nat
deriving DecidableEq, Repr

/-- The constant `os.ModeDir`, bit 31 of the mode word. -/
def ModeDir : Nat := 1 <<< 31

/-- The constant `os.ModePerm`, the nine Unix permission bits `0777`. -/
def ModePerm : Nat := 0o777

/-- The method `FileInfo.IsDir`. -/
def FileInfo.IsDir (fi : FileInfo) : Bool := fi.mode &&& ModeDir != 0

/-- The method chain `fi.Mode().Perm()`. -/
def FileInfo.Perm (fi : FileInfo) : Nat := fi.mode &&& ModePerm

/-- The struct `user.User`, of which only `HomeDir` is read. -/
structure User where
  HomeDir : String
deriving DecidableEq, Repr

/-- The answers of the operating system and of the standard library.

* `currentUser`: `user.Current()`; `none` when the lookup fails, in which case
  the returned `*User` is nil.
* `openConfig home`: the error of
  `os.OpenFile(filepath.Join(home, ".bin/config.json"), O_RDWR|O_CREATE, 0666)`,
  `none` when the file could be opened or created.
* `decode c`: `json.NewDecoder(f).Decode(&cfg)` on the opened file when `cfg`
  holds `c`: the content of `cfg` afterwards and the error returned.
* `encode c`: the error of `json.NewEncoder(f).Encode(c)`.
* `PATH`: `os.Getenv("PATH")`.
* `files p`: the file the non-empty name `p` resolves to, if any. -/
structure Env where
  currentUser : Option User
  openConfig : String → Option Error
  decode : config → config × Option Error
  encode : config → Option Error
  PATH : String
  files : String → Option FileInfo

/-- The call `os.Stat(p)`: `none` when it returns an error (and a nil
`FileInfo`).  The empty name never resolves (`ENOENT`). -/
def Stat (env : Env) (p : String) : Option FileInfo :=
  if p = "" then none else env.files p

/-! ## `strings.Split` with a one-character separator -/

/-- The loop of `strings.Split`: `cur` holds, reversed, the characters read
since the last separator. -/
def splitAux (sep : Char) : List Char → List Char → List (List Char)
  | [], cur => [cur.reverse]
  | c :: cs, cur =>
    if c = sep then cur.reverse :: splitAux sep cs [] else splitAux sep cs (c :: cur)

/-- The call `strings.Split(s, ":")`: the substrings between the colons, in
order; one more than the number of colons, so `[""]` for the empty string. -/
def Split (s : String) : List String :=
  (splitAux ':' s.data []).map String.mk

/-! ## The path resolver -/

/-- The test of line 67:
`fi.IsDir() && !(fi.Mode().Perm()&(1<<(uint(7))) == 0)`. -/
def qualifies (fi : FileInfo) : Bool :=
  fi.IsDir && !(fi.Perm &&& (1 <<< 7) == 0)

/-- The `for` loop of `getDefaultPath` (lines 62-72) over the candidates that
are left.  `fi, _ := os.Stat(p)` drops the error, so that after a failed stat
`fi` is nil and `fi.IsDir()` panics. -/
def scan (env : Env) : List String → Run String
  | [] => .returned ""
  | p :: rest =>
    match Stat env p with
    | none => .panicked
    | some fi => if qualifies fi then .returned p else scan env rest

/-- The function `getDefaultPath` (lines 59-76). -/
def getDefaultPath (env : Env) : Run String :=
  scan env (Split env.PATH)

/-! ## The config store -/

/-- The map read `m[k]` with the comma-ok form; reading a nil map finds
nothing. -/
def lookup (bins : Option BinMap) (k : String) : Option (Option Binary) :=
  match bins with
  | none => none
  | some m => m k

/-- The map after the assignment `m[k] = v` on a map that has been made. -/
def BinMap.set (m : BinMap) (k : String) (v : Option Binary) : BinMap :=
  fun k' => if k' = k then some v else m k'

/-- The map after the builtin `delete(m, k)`; on a nil map `delete` does
nothing. -/
def deleteKey (bins : Option BinMap) (k : String) : Option BinMap :=
  match bins with
  | none => none
  | some m => some (fun k' => if k' = k then none else m k')

/-- The function `write` (lines 107-121).  `u, _ := user.Current()` drops the
error, so that `u.HomeDir` panics when the lookup failed. -/
def write (env : Env) (cfg : config) : Run (Option Error) :=
  match env.currentUser with
  | none => .panicked
  | some u =>
    match env.openConfig u.HomeDir with
    | some err => .returned (some err)
    | none =>
      match env.encode cfg with
      | some err => .returned (some err)
      | none => .returned none

/-- The function `UpsertBinary` (lines 84-95) called with the pointer `c` while
the global holds `cfg`: the global afterwards and the way the call ended.  The
assignment `cfg.Bins[c.Path] = c` panics on a nil map. -/
def UpsertBinary (env : Env) (cfg : config) (c : Option Binary) :
    config × Run (Option Error) :=
  match c with
  | none => (cfg, .returned none)
  | some b =>
    match cfg.Bins with
    | none => (cfg, .panicked)
    | some m =>
      let cfg1 : config := { cfg with Bins := some (m.set b.Path (some b)) }
      match write env cfg1 with
      | .panicked => (cfg1, .panicked)
      | .returned (some err) => (cfg1, .returned (some err))
      | .returned none => (cfg1, .returned none)

/-- The function `RemoveBinaries` (lines 99-105): one `delete` for each element
of `paths`, in order, then `write`. -/
def RemoveBinaries (env : Env) (cfg : config) (paths : List String) :
    config × Run (Option Error) :=
  let cfg1 : config := { cfg with Bins := paths.foldl deleteKey cfg.Bins }
  (cfg1, write env cfg1)

/-- The function `CheckAndLoad` (lines 30-54) called while the global holds
`cfg`. -/
def CheckAndLoad (env : Env) (cfg : config) : config × Run (Option Error) :=
  match env.currentUser with
  | none => (cfg, .panicked)
  | some u =>
    match env.openConfig u.HomeDir with
    | some err => (cfg, .returned (some err))
    | none =>
      let (cfg1, err) := env.decode cfg
      let resolved : Run String :=
        if cfg1.DefaultPath.length = 0 then getDefaultPath env
        else .returned cfg1.DefaultPath
      match resolved with
      | .panicked => (cfg1, .panicked)
      | .returned d =>
        let cfg2 : config := { cfg1 with DefaultPath := d }
        if err ≠ none ∧ err ≠ some Error.EOF then (cfg2, .returned err)
        else if err = some Error.EOF then
          ({ cfg2 with Bins := some BinMap.empty }, .returned none)
        else (cfg2, .returned none)

/-! ## Platform info -/

/-- The function `GetArch` (lines 125-133); `GOARCH` is the constant
`runtime.GOARCH` of the build. -/
def GetArch (GOARCH : String) : List String :=
  let res := [GOARCH]
  if GOARCH = "amd64" then res ++ ["x86_64"] else res

/-! ## Permission bits named by the specification -/

/-- The owner write bit `0200` of the permission bits. -/
def ownerWritable (fi : FileInfo) : Prop := fi.Perm &&& 0o200 ≠ 0

/-- The other/world write bit `0002` of the permission bits. -/
def worldWritable (fi : FileInfo) : Prop := fi.Perm &&& 0o002 ≠ 0

instance (fi : FileInfo) : Decidable (ownerWritable fi) := by
  unfold ownerWritable; infer_instance

instance (fi : FileInfo) : Decidable (worldWritable fi) := by
  unfold worldWritable; infer_instance

/-! ## Concrete environments and records -/

/-- A directory entry with the given permission bits. -/
def dir (perm : Nat) : FileInfo := ⟨ModeDir ||| perm⟩

/-- A host on which every call succeeds: the config file is empty (the decoder
reports `io.EOF` and leaves `cfg` as it is), and `PATH` is
`/usr/local/bin:/usr/bin` with both directories present, mode `0755`. -/
def envHealthy : Env where
  currentUser := some ⟨"/home/alice"⟩
  openConfig := fun _ => none
  decode := fun c => (c, some Error.EOF)
  encode := fun _ => none
  PATH := "/usr/local/bin:/usr/bin"
  files := fun p =>
    if p = "/usr/local/bin" then some (dir 0o755)
    else if p = "/usr/bin" then some (dir 0o755) else none

/-- The host `envHealthy` once the config file can no longer be opened. -/
def envOpenFails : Env :=
  { envHealthy with openConfig := fun _ => some (Error.other "permission denied") }

/-- Version 1.0 of a tool installed at `/usr/local/bin/kubectl`. -/
def kubectlOld : Binary :=
  ⟨"/usr/local/bin/kubectl", "kubectl", "1.0", "aaaa", "https://example.org/v1.0"⟩

/-- Version 2.0 of the same tool, same path. -/
def kubectlNew : Binary :=
  ⟨"/usr/local/bin/kubectl", "kubectl", "2.0", "bbbb", "https://example.org/v2.0"⟩

/-- A second tool, at `/usr/local/bin/helm`. -/
def helm : Binary :=
  ⟨"/usr/local/bin/helm", "helm", "3.1", "cccc", "https://example.org/helm"⟩

/-- A registry holding `kubectlOld` and `helm`. -/
def twoBins : BinMap :=
  BinMap.set (BinMap.set BinMap.empty kubectlOld.Path (some kubectlOld)) helm.Path (some helm)

/-- A loaded configuration holding `twoBins`. -/
def cfgTwoBins : config := { DefaultPath := "/usr/local/bin", Bins := some twoBins }

/-- The example of the specification: `PATH` is `/readonly:/writable`, where
`/readonly` is a directory of mode `0755` (no world write) and `/writable` a
directory of mode `0777` (world write). -/
def envReadonlyWritable : Env :=
  { envHealthy with
    PATH := "/readonly:/writable"
    files := fun p =>
      if p = "/readonly" then some (dir 0o755)
      else if p = "/writable" then some (dir 0o777) else none }

/-- The same search path, where `/readonly` has mode `0555` (nobody may write)
and `/writable` has mode `0755` (the owner may write). -/
def envOwnerBit : Env :=
  { envHealthy with
    PATH := "/readonly:/writable"
    files := fun p =>
      if p = "/readonly" then some (dir 0o555)
      else if p = "/writable" then some (dir 0o755) else none }

/-- A host whose `PATH`, `/nonexistent:/usr/local/bin`, starts with a directory
that does not exist; the config file is empty. -/
def envMissingDir : Env :=
  { envHealthy with PATH := "/nonexistent:/usr/local/bin" }

/-- A host whose `PATH` is empty; the config file is empty. -/
def envEmptyPATH : Env :=
  { envHealthy with PATH := "" }

/-- The host `envMissingDir` with a config file that holds malformed JSON: the
decoder reports a syntax error and leaves `cfg` as it is. -/
def envMalformed : Env :=
  { envMissingDir with decode := fun c => (c, some (Error.other "invalid character")) }

/-- A host whose only `PATH` entry, `/opt/shared`, is a directory of mode
`0557`: world write is set, owner write is not.  The config file is empty. -/
def envWorldOnly : Env :=
  { envHealthy with
    PATH := "/opt/shared"
    files := fun p => if p = "/opt/shared" then some (dir 0o557) else none }

/-- The host `envHealthy` with a config file that holds the JSON object `{}`:
the decoder stores nothing into `cfg` and returns no error. -/
def envEmptyObject : Env :=
  { envHealthy with decode := fun c => (c, none) }

/-- The resolver in the words of the specification: the first candidate, in
search-path order, that exists, is a directory and has the other/world write
bit set; the empty string when there is none. -/
def specResolve (env : Env) : List String → String
  | [] => ""
  | p :: rest =>
    match Stat env p with
    | some fi => if fi.IsDir ∧ worldWritable fi then p else specResolve env rest
    | none => specResolve env rest

/-! ## Auxiliary lemmas -/

theorem qualifies_iff (fi : FileInfo) :
    qualifies fi = true ↔ fi.IsDir = true ∧ ownerWritable fi := by
  have h7 : (1 <<< 7 : Nat) = 0o200 := by decide
  simp [qualifies, ownerWritable, h7]

theorem Stat_ne_empty {env : Env} {p : String} {fi : FileInfo}
    (h : Stat env p = some fi) : p ≠ "" := by
  intro hp
  simp [Stat, hp] at h

theorem scan_first (env : Env) (pre post : List String) (p : String) (fi : FileInfo)
    (hpre : ∀ q ∈ pre, ∃ fq, Stat env q = some fq ∧ ¬ (fq.IsDir = true ∧ ownerWritable fq))
    (hp : Stat env p = some fi) (hq : fi.IsDir = true ∧ ownerWritable fi) :
    scan env (pre ++ p :: post) = .returned p := by
  induction pre with
  | nil =>
    have : qualifies fi = true := (qualifies_iff fi).2 hq
    simp [scan, hp, this]
  | cons q pre ih =>
    obtain ⟨fq, hfq, hnq⟩ := hpre q (List.mem_cons_self q pre)
    have hq' : qualifies fq = false := by
      cases hqq : qualifies fq with
      | false => rfl
      | true => exact absurd ((qualifies_iff fq).1 hqq) hnq
    have ih' := ih (fun r hr => hpre r (List.mem_cons_of_mem q hr))
    simp [scan, hfq, hq', ih']

theorem scan_failed_stat (env : Env) (p : String) (rest : List String)
    (h : Stat env p = none) : scan env (p :: rest) = .panicked := by
  simp [scan, h]

/-- The loop panics as soon as it meets a candidate whose stat fails, unless a
qualifying directory came before it. -/
theorem scan_panics (env : Env) (pre post : List String) (p : String)
    (hpre : ∀ q ∈ pre, ∃ fq, Stat env q = some fq ∧ ¬ (fq.IsDir = true ∧ ownerWritable fq))
    (hp : Stat env p = none) : scan env (pre ++ p :: post) = .panicked := by
  induction pre with
  | nil => exact scan_failed_stat env p post hp
  | cons q pre ih =>
    obtain ⟨fq, hfq, hnq⟩ := hpre q (List.mem_cons_self q pre)
    have hq' : qualifies fq = false := by
      cases hqq : qualifies fq with
      | false => rfl
      | true => exact absurd ((qualifies_iff fq).1 hqq) hnq
    have ih' := ih (fun r hr => hpre r (List.mem_cons_of_mem q hr))
    simp [scan, hfq, hq', ih']

/-- When every candidate can be stat'ed and none qualifies, the loop returns
the empty string. -/
theorem scan_none_qualify (env : Env) (ps : List String)
    (h : ∀ q ∈ ps, ∃ fq, Stat env q = some fq ∧ ¬ (fq.IsDir = true ∧ ownerWritable fq)) :
    scan env ps = .returned "" := by
  induction ps with
  | nil => rfl
  | cons q ps ih =>
    obtain ⟨fq, hfq, hnq⟩ := h q (List.mem_cons_self q ps)
    have hq' : qualifies fq = false := by
      cases hqq : qualifies fq with
      | false => rfl
      | true => exact absurd ((qualifies_iff fq).1 hqq) hnq
    have ih' := ih (fun r hr => h r (List.mem_cons_of_mem q hr))
    simp [scan, hfq, hq', ih']

theorem lookup_deleteKey (bins : Option BinMap) (p k : String) :
    lookup (deleteKey bins p) k = if k = p then none else lookup bins k := by
  cases bins with
  | none => simp [deleteKey, lookup]
  | some m => simp [deleteKey, lookup]

theorem lookup_foldl_deleteKey (ps : List String) (bins : Option BinMap) (k : String) :
    lookup (ps.foldl deleteKey bins) k = if k ∈ ps then none else lookup bins k := by
  induction ps generalizing bins with
  | nil => simp
  | cons p ps ih =>
    rw [List.foldl_cons, ih, lookup_deleteKey]
    by_cases h1 : k ∈ ps
    · simp [h1]
    · by_cases h2 : k = p
      · simp [h2]
      · simp [h1, h2]

theorem foldl_deleteKey_none (ps : List String) :
    ps.foldl deleteKey none = none := by
  induction ps with
  | nil => rfl
  | cons p ps ih => simpa [deleteKey] using ih

theorem foldl_deleteKey_some (ps : List String) (m : BinMap) :
    ps.foldl deleteKey (some m) = some (fun k => if k ∈ ps then none else m k) := by
  induction ps generalizing m with
  | nil => simp
  | cons p ps ih =>
    rw [List.foldl_cons]
    simp only [deleteKey]
    rw [ih]
    congr 1
    funext k
    by_cases h1 : k ∈ ps
    · simp [h1]
    · by_cases h2 : k = p
      · simp [h2]
      · simp [h1, h2]

theorem foldl_deleteKey_perm {ps qs : List String} (h : ps.Perm qs)
    (bins : Option BinMap) : ps.foldl deleteKey bins = qs.foldl deleteKey bins := by
  cases bins with
  | none => rw [foldl_deleteKey_none, foldl_deleteKey_none]
  | some m =>
    rw [foldl_deleteKey_some, foldl_deleteKey_some]
    congr 1
    funext k
    simp [h.mem_iff]

theorem foldl_deleteKey_absent (ps : List String) (bins : Option BinMap)
    (h : ∀ p ∈ ps, lookup bins p = none) : ps.foldl deleteKey bins = bins := by
  cases bins with
  | none => exact foldl_deleteKey_none ps
  | some m =>
    rw [foldl_deleteKey_some]
    congr 1
    funext k
    by_cases hk : k ∈ ps
    · have := h k hk
      simp only [lookup] at this
      simp [hk, this]
    · simp [hk]

theorem getDefaultPath_resolved_cases (env : Env) (c : config) (d : String)
    (h : getDefaultPath env = .returned d) :
    ∃ d', (if c.DefaultPath.length = 0 then getDefaultPath env
      else Run.returned c.DefaultPath) = .returned d' := by
  by_cases hc : c.DefaultPath.length = 0
  · exact ⟨d, by simp [hc, h]⟩
  · exact ⟨c.DefaultPath, by simp [hc]⟩

/-- When the user lookup succeeds and path resolution does not panic,
`CheckAndLoad` returns the error `e` exactly when opening the config file
fails with `e`, or the file opens and decoding fails with `e` other than
`io.EOF`. -/
theorem CheckAndLoad_error_iff (env : Env) (cfg : config) (u : User) (d : String)
    (hu : env.currentUser = some u) (hres : getDefaultPath env = .returned d)
    (e : Error) :
    (CheckAndLoad env cfg).2 = .returned (some e) ↔
      env.openConfig u.HomeDir = some e ∨
      (env.openConfig u.HomeDir = none ∧ (env.decode cfg).2 = some e ∧ e ≠ Error.EOF) := by
  cases ho : env.openConfig u.HomeDir with
  | some e' => simp [CheckAndLoad, hu, ho]
  | none =>
    obtain ⟨d', hd'⟩ := getDefaultPath_resolved_cases env (env.decode cfg).1 d hres
    cases hd : (env.decode cfg).2 with
    | none => simp [CheckAndLoad, hu, ho, hd', hd]
    | some e' =>
      by_cases he : e' = Error.EOF
      · subst he
        simp only [CheckAndLoad, hu, ho, hd', hd]
        constructor
        · intro h
          simp at h
        · rintro (h | ⟨-, h1, h2⟩)
          · simp at h
          · exact absurd (Option.some.inj h1).symm h2
      · simp only [CheckAndLoad, hu, ho, hd', hd]
        constructor
        · intro h
          simp [he] at h
          subst h
          simp [he]
        · rintro (h | ⟨-, h1, -⟩)
          · simp at h
          · have := Option.some.inj h1
            subst this
            simp [he]

/-! ## Upsert -/

/-- Claim C1: on an initialised bins mapping `m`, after `UpsertBinary` of a
non-nil record `r` the mapping holds exactly `r` under the key `r.Path`
(whatever was stored there before is gone), every other key holds what it held
in `m`, and `DefaultPath` is unchanged. -/
theorem UpsertBinary_overwrites (env : Env) (cfg : config) (m : BinMap) (r : Binary)
    (hm : cfg.Bins = some m) :
    ∃ m' : BinMap, (UpsertBinary env cfg (some r)).1.Bins = some m' ∧
      m' r.Path = some (some r) ∧
      (∀ k, k ≠ r.Path → m' k = m k) ∧
      (UpsertBinary env cfg (some r)).1.DefaultPath = cfg.DefaultPath := by
  refine ⟨m.set r.Path (some r), ?_, ?_, ?_, ?_⟩
  · simp only [UpsertBinary, hm]
    cases write env { cfg with Bins := some (m.set r.Path (some r)) } with
    | panicked => rfl
    | returned e => cases e <;> rfl
  · simp [BinMap.set]
  · intro k hk
    simp [BinMap.set, hk]
  · simp only [UpsertBinary, hm]
    cases write env { cfg with Bins := some (m.set r.Path (some r)) } with
    | panicked => rfl
    | returned e => cases e <;> rfl

/-- Witness for C1: upserting version 2.0 of `kubectl` over a registry that
holds version 1.0 under the same path. -/
theorem UpsertBinary_overwrites_witness :
    cfgTwoBins.Bins = some twoBins ∧
    ∃ m' : BinMap, (UpsertBinary envHealthy cfgTwoBins (some kubectlNew)).1.Bins = some m' ∧
      m' kubectlNew.Path = some (some kubectlNew) ∧
      (∀ k, k ≠ kubectlNew.Path → m' k = twoBins k) ∧
      (UpsertBinary envHealthy cfgTwoBins (some kubectlNew)).1.DefaultPath
        = cfgTwoBins.DefaultPath :=
  ⟨rfl, UpsertBinary_overwrites envHealthy cfgTwoBins twoBins kubectlNew rfl⟩

/-- Claim C8: `UpsertBinary` of a non-nil record `r` on an initialised mapping
is not atomic with respect to persistence.  When the write that follows the
update fails, at the open or at the encoding of the updated record, the call
returns exactly that error and the in-memory mapping nevertheless holds `r`
under `r.Path`; when the write succeeds the call returns no error. -/
theorem UpsertBinary_write_error (env : Env) (cfg : config) (m : BinMap) (r : Binary)
    (u : User) (hm : cfg.Bins = some m) (hu : env.currentUser = some u) :
    (∀ e, env.openConfig u.HomeDir = some e →
        (UpsertBinary env cfg (some r)).2 = .returned (some e) ∧
        lookup (UpsertBinary env cfg (some r)).1.Bins r.Path = some (some r)) ∧
    (∀ e, env.openConfig u.HomeDir = none →
        env.encode { cfg with Bins := some (m.set r.Path (some r)) } = some e →
        (UpsertBinary env cfg (some r)).2 = .returned (some e) ∧
        lookup (UpsertBinary env cfg (some r)).1.Bins r.Path = some (some r)) ∧
    (env.openConfig u.HomeDir = none →
        env.encode { cfg with Bins := some (m.set r.Path (some r)) } = none →
        (UpsertBinary env cfg (some r)).2 = .returned none) := by
  refine ⟨?_, ?_, ?_⟩
  · intro e ho
    simp [UpsertBinary, hm, write, hu, ho, lookup, BinMap.set]
  · intro e ho he
    simp [UpsertBinary, hm, write, hu, ho, he, lookup, BinMap.set]
  · intro ho he
    simp [UpsertBinary, hm, write, hu, ho, he]

/-- Witness for C8: the config file cannot be opened; the call returns the open
error and the registry holds the new record all the same. -/
theorem UpsertBinary_write_error_witness :
    cfgTwoBins.Bins = some twoBins ∧
    envOpenFails.currentUser = some ⟨"/home/alice"⟩ ∧
    envOpenFails.openConfig "/home/alice" = some (Error.other "permission denied") ∧
    (UpsertBinary envOpenFails cfgTwoBins (some kubectlNew)).2
      = .returned (some (Error.other "permission denied")) ∧
    lookup (UpsertBinary envOpenFails cfgTwoBins (some kubectlNew)).1.Bins kubectlNew.Path
      = some (some kubectlNew) :=
  ⟨rfl, rfl, rfl,
    (UpsertBinary_write_error envOpenFails cfgTwoBins twoBins kubectlNew
      ⟨"/home/alice"⟩ rfl rfl).1 (Error.other "permission denied") rfl⟩

/-! ## Removal -/

/-- Claim C2: after `RemoveBinaries ps` the mapping is the set difference of
the mapping before by `ps`, for every mapping (the nil map included) and every
list `ps` (duplicates and absent paths included): a key is present exactly when
it was present and does not occur in `ps`, every key outside `ps` holds what it
held before, and when no element of `ps` was a key the configuration is
unchanged. -/
theorem RemoveBinaries_set_difference (env : Env) (cfg : config) (ps : List String) :
    (∀ k, (lookup (RemoveBinaries env cfg ps).1.Bins k ≠ none ↔
        lookup cfg.Bins k ≠ none ∧ k ∉ ps)) ∧
    (∀ k, k ∉ ps → lookup (RemoveBinaries env cfg ps).1.Bins k = lookup cfg.Bins k) ∧
    ((∀ p ∈ ps, lookup cfg.Bins p = none) → (RemoveBinaries env cfg ps).1 = cfg) := by
  refine ⟨?_, ?_, ?_⟩
  · intro k
    simp only [RemoveBinaries, lookup_foldl_deleteKey]
    by_cases hk : k ∈ ps <;> simp [hk]
  · intro k hk
    simp only [RemoveBinaries, lookup_foldl_deleteKey]
    simp [hk]
  · intro h
    simp only [RemoveBinaries]
    rw [foldl_deleteKey_absent ps cfg.Bins h]

/-- Witness for C2: removing a path that is not registered, twice, leaves the
configuration as it was; removing `helm` (twice, with an unregistered path in
between) leaves `kubectl` as it was. -/
theorem RemoveBinaries_set_difference_witness :
    (∀ p ∈ ["/opt/none", "/opt/none"], lookup cfgTwoBins.Bins p = none) ∧
    (RemoveBinaries envHealthy cfgTwoBins ["/opt/none", "/opt/none"]).1 = cfgTwoBins ∧
    kubectlOld.Path ∉ [helm.Path, "/opt/none", helm.Path] ∧
    lookup (RemoveBinaries envHealthy cfgTwoBins [helm.Path, "/opt/none", helm.Path]).1.Bins
      kubectlOld.Path = lookup cfgTwoBins.Bins kubectlOld.Path :=
  ⟨by decide,
    (RemoveBinaries_set_difference envHealthy cfgTwoBins ["/opt/none", "/opt/none"]).2.2
      (by decide),
    by decide,
    (RemoveBinaries_set_difference envHealthy cfgTwoBins
      [helm.Path, "/opt/none", helm.Path]).2.1 kubectlOld.Path (by decide)⟩

/-- Claim C3: removal is order-independent: for path lists that are
permutations of each other `RemoveBinaries` leaves the same mapping (and ends
the same way). -/
theorem RemoveBinaries_perm (env : Env) (cfg : config) (ps qs : List String)
    (h : ps.Perm qs) : RemoveBinaries env cfg ps = RemoveBinaries env cfg qs := by
  simp only [RemoveBinaries]
  rw [foldl_deleteKey_perm h cfg.Bins]

/-- Witness for C3: the lists `[a, b]` and `[b, a]`. -/
theorem RemoveBinaries_perm_witness :
    [kubectlOld.Path, helm.Path].Perm [helm.Path, kubectlOld.Path] ∧
    RemoveBinaries envHealthy cfgTwoBins [kubectlOld.Path, helm.Path]
      = RemoveBinaries envHealthy cfgTwoBins [helm.Path, kubectlOld.Path] :=
  ⟨List.Perm.swap _ _ _,
    RemoveBinaries_perm envHealthy cfgTwoBins _ _ (List.Perm.swap _ _ _)⟩

/-! ## Platform info -/

/-- Claim C9: for the architecture identifier `amd64` `GetArch` returns exactly
the identifier followed by `x86_64`, and for every other identifier `a` it
returns exactly `[a]`. -/
theorem GetArch_spec (a : String) :
    (a = "amd64" → GetArch a = [a, "x86_64"]) ∧ (a ≠ "amd64" → GetArch a = [a]) := by
  constructor
  · intro h
    simp [GetArch, h]
  · intro h
    simp [GetArch, h]

/-- Witness for C9: the identifiers `amd64` and `arm64`. -/
theorem GetArch_spec_witness :
    GetArch "amd64" = ["amd64", "x86_64"] ∧ GetArch "arm64" = ["arm64"] :=
  ⟨(GetArch_spec "amd64").1 rfl, (GetArch_spec "arm64").2 (by decide)⟩

/-! ## The path resolver -/

/-- Claim C4, as stated, fails on the example of the specification: with
`PATH = /readonly:/writable`, `/readonly` a directory without world write and
`/writable` a directory with world write, the first candidate that exists, is a
directory and has the world write bit set is `/writable`, yet
`getDefaultPath` returns `/readonly`, whose owner write bit is set. -/
theorem getDefaultPath_not_world_write :
    (∃ fi, Stat envReadonlyWritable "/readonly" = some fi ∧ fi.IsDir = true ∧
      ¬ worldWritable fi) ∧
    (∃ fi, Stat envReadonlyWritable "/writable" = some fi ∧ fi.IsDir = true ∧
      worldWritable fi) ∧
    specResolve envReadonlyWritable (Split envReadonlyWritable.PATH) = "/writable" ∧
    getDefaultPath envReadonlyWritable = .returned "/readonly" ∧
    getDefaultPath envReadonlyWritable ≠ .returned "/writable" := by
  refine ⟨⟨dir 0o755, ?_, ?_, ?_⟩, ⟨dir 0o777, ?_, ?_, ?_⟩, ?_, ?_, ?_⟩ <;> decide

/-- Claim C4, amended: when every candidate before it can be stat'ed and is
not a directory with the owner write bit `0200` set, the first candidate, in
search-path order, that exists, is a directory and has the owner write bit set
is what `getDefaultPath` returns. -/
theorem getDefaultPath_first_owner_writable (env : Env) (pre post : List String)
    (p : String) (fi : FileInfo)
    (hsplit : Split env.PATH = pre ++ p :: post)
    (hpre : ∀ q ∈ pre, ∃ fq, Stat env q = some fq ∧ ¬ (fq.IsDir = true ∧ ownerWritable fq))
    (hp : Stat env p = some fi) (hdir : fi.IsDir = true) (hw : ownerWritable fi) :
    getDefaultPath env = .returned p := by
  unfold getDefaultPath
  rw [hsplit]
  exact scan_first env pre post p fi hpre hp ⟨hdir, hw⟩

/-- Witness for the amended C4: with `PATH = /readonly:/writable`, `/readonly`
of mode `0555` and `/writable` of mode `0755`, the result is `/writable`. -/
theorem getDefaultPath_first_owner_writable_witness :
    Split envOwnerBit.PATH = ["/readonly"] ++ "/writable" :: [] ∧
    (∀ q ∈ ["/readonly"], ∃ fq, Stat envOwnerBit q = some fq ∧
      ¬ (fq.IsDir = true ∧ ownerWritable fq)) ∧
    Stat envOwnerBit "/writable" = some (dir 0o755) ∧
    (dir 0o755).IsDir = true ∧ ownerWritable (dir 0o755) ∧
    getDefaultPath envOwnerBit = .returned "/writable" :=
  have hpre : ∀ q ∈ ["/readonly"], ∃ fq, Stat envOwnerBit q = some fq ∧
      ¬ (fq.IsDir = true ∧ ownerWritable fq) := by
    intro q hq
    rw [List.mem_singleton] at hq
    subst hq
    exact ⟨dir 0o555, by decide, by decide⟩
  ⟨by decide, hpre, by decide, by decide, by decide,
    getDefaultPath_first_owner_writable envOwnerBit ["/readonly"] [] "/writable"
      (dir 0o755) (by decide) hpre (by decide) (by decide) (by decide)⟩

/-- Claim C5 fails on the code: a candidate whose stat fails is not skipped.
With `PATH = /nonexistent:/usr/local/bin`, where `/nonexistent` does not exist
and `/usr/local/bin` is a directory of mode `0755`, and with the empty `PATH`,
whose only candidate is the empty name, `getDefaultPath` panics instead of
returning `/usr/local/bin` and the empty string. -/
theorem getDefaultPath_panics_on_failed_stat :
    Split envMissingDir.PATH = ["/nonexistent", "/usr/local/bin"] ∧
    Stat envMissingDir "/nonexistent" = none ∧
    Stat envMissingDir "/usr/local/bin" = some (dir 0o755) ∧
    getDefaultPath envMissingDir = .panicked ∧
    Split envEmptyPATH.PATH = [""] ∧
    Stat envEmptyPATH "" = none ∧
    getDefaultPath envEmptyPATH = .panicked := by
  refine ⟨?_, ?_, ?_, ?_, ?_, ?_, ?_⟩ <;> decide

/-! ## Initialisation -/

/-- Claim C6 fails on the code: with an empty config file (the decoder reports
`io.EOF`) and with a malformed one (the decoder reports another error),
`CheckAndLoad` started on the zero `cfg` neither succeeds nor returns the
decode error when the first `PATH` entry does not exist: path resolution runs
before the error is looked at, and panics. -/
theorem CheckAndLoad_panics_before_error_check :
    envMissingDir.currentUser = some ⟨"/home/alice"⟩ ∧
    envMissingDir.openConfig "/home/alice" = none ∧
    (envMissingDir.decode config.zero).2 = some Error.EOF ∧
    (CheckAndLoad envMissingDir config.zero).2 = .panicked ∧
    envMalformed.currentUser = some ⟨"/home/alice"⟩ ∧
    envMalformed.openConfig "/home/alice" = none ∧
    (envMalformed.decode config.zero).2 = some (Error.other "invalid character") ∧
    (CheckAndLoad envMalformed config.zero).2 = .panicked := by
  refine ⟨?_, ?_, ?_, ?_, ?_, ?_, ?_, ?_⟩ <;> decide

/-- Claim C7, as stated, fails: on a first run (zero `cfg`, empty config file)
with `PATH = /opt/shared`, a directory of mode `0557` that exists and has the
world write bit set, `CheckAndLoad` succeeds and leaves `DefaultPath` empty. -/
theorem CheckAndLoad_first_run_empty_default :
    (envWorldOnly.decode config.zero).2 = some Error.EOF ∧
    (∃ p ∈ Split envWorldOnly.PATH, ∃ fi, Stat envWorldOnly p = some fi ∧
      fi.IsDir = true ∧ worldWritable fi) ∧
    (CheckAndLoad envWorldOnly config.zero).2 = .returned none ∧
    (CheckAndLoad envWorldOnly config.zero).1.DefaultPath = "" := by
  refine ⟨?_, ⟨"/opt/shared", ?_, dir 0o557, ?_, ?_, ?_⟩, ?_, ?_⟩ <;> decide

/-- Claim C7, amended: on a first run (zero `cfg`, the config file can be
opened and is empty: the decoder reports `io.EOF` and stores nothing), when
the search path has a directory with the owner write bit `0200` set and every
candidate before the first such directory can be stat'ed, `CheckAndLoad`
succeeds and leaves `Bins` equal to the empty mapping and `DefaultPath`
non-empty, equal to the result of `getDefaultPath`. -/
theorem CheckAndLoad_first_run (env : Env) (u : User) (pre post : List String)
    (p : String) (fi : FileInfo)
    (hu : env.currentUser = some u) (hopen : env.openConfig u.HomeDir = none)
    (hdec : env.decode config.zero = (config.zero, some Error.EOF))
    (hsplit : Split env.PATH = pre ++ p :: post)
    (hpre : ∀ q ∈ pre, ∃ fq, Stat env q = some fq ∧ ¬ (fq.IsDir = true ∧ ownerWritable fq))
    (hp : Stat env p = some fi) (hdir : fi.IsDir = true) (hw : ownerWritable fi) :
    ∃ c : config, CheckAndLoad env config.zero = (c, .returned none) ∧
      c.Bins = some BinMap.empty ∧ c.DefaultPath ≠ "" ∧
      getDefaultPath env = .returned c.DefaultPath := by
  have hres : getDefaultPath env = .returned p := by
    unfold getDefaultPath
    rw [hsplit]
    exact scan_first env pre post p fi hpre hp ⟨hdir, hw⟩
  refine ⟨{ DefaultPath := p, Bins := some BinMap.empty }, ?_, rfl, Stat_ne_empty hp, hres⟩
  simp only [CheckAndLoad, hu, hopen, hdec]
  simp [hres, config.zero]

/-- Witness for the amended C7: the host `envHealthy`, whose first `PATH`
entry `/usr/local/bin` is a directory of mode `0755`. -/
theorem CheckAndLoad_first_run_witness :
    ∃ c : config, CheckAndLoad envHealthy config.zero = (c, .returned none) ∧
      c.Bins = some BinMap.empty ∧ c.DefaultPath ≠ "" ∧
      getDefaultPath envHealthy = .returned c.DefaultPath :=
  CheckAndLoad_first_run envHealthy ⟨"/home/alice"⟩ [] ["/usr/bin"] "/usr/local/bin"
    (dir 0o755) rfl rfl rfl (by decide) (by simp) (by decide) (by decide) (by decide)

/-- Claim C10 fails on the code: when the config file holds the JSON object
`{}`, `CheckAndLoad` started on the zero `cfg` returns success and leaves
`Bins` nil, and the following `UpsertBinary` of a non-nil record panics on the
assignment to the nil map. -/
theorem CheckAndLoad_leaves_nil_map :
    envEmptyObject.decode config.zero = (config.zero, none) ∧
    (CheckAndLoad envEmptyObject config.zero).2 = .returned none ∧
    (CheckAndLoad envEmptyObject config.zero).1.Bins.isNone = true ∧
    (UpsertBinary envEmptyObject (CheckAndLoad envEmptyObject config.zero).1 (some helm)).2
      = .panicked := by
  refine ⟨rfl, ?_, ?_, ?_⟩ <;> decide

end BinConfig
